import Mathlib

/-!
Shallow embedding of the PL011 UART driver
(`src/15_virtual_mem_part2_mmio_remap/src/bsp/device_driver/bcm/bcm2xxx_pl011_uart.rs`).

Modelling conventions:

* Every MMIO register write the driver performs is recorded, in program
  order, in a trace of `MMIOWrite` entries carrying the base address the
  register handle was bound to at the time of the write, the register name,
  and the 32-bit value written.  All values written by the driver fit in 32
  bits (field values of `register_bitfields!` and `c as u32` casts), so no
  modular truncation is needed on the trace.
* The receive side of the hardware is an explicit FIFO (`rxFifo`, the `DR`
  read end pops the front; the `FR.RXFE` flag is `rxFifo = []`), plus
  `rxArrivals`, the bytes that land in the FIFO while a blocking busy-wait
  spins (empty when nothing arrives).  The transmit-full flag `FR.TXFF` is
  modelled as the constant value `txFull` those reads return.  A busy-wait
  whose flag never changes does not terminate; operations that contain one
  return `Option`, with `none` for the non-terminating execution.  Reading
  `FR` or `MIS` has no side effect, and a terminating spin loop (reads plus
  `nop`) is the identity on this state, so it is elided from the state
  transformer.
* `MIS`, the masked interrupt status, is a constant input `mis`: the
  handler snapshots it exactly once (`extract()`), so later hardware
  changes to it are invisible to the code being modelled.
-/

namespace PL011

/-- Names of the PL011 registers the driver writes through MMIO. -/
inductive Reg
  | DR
  | IBRD
  | FBRD
  | LCRH
  | CR
  | IFLS
  | IMSC
  | ICR
deriving DecidableEq, Repr

/-- One MMIO register write: the base address the register handle was bound
to, the register written, and the 32-bit value. -/
structure MMIOWrite where
  base : Nat
  reg : Reg
  val : Nat
deriving DecidableEq, Repr

/-- Hardware-side state visible to the driver. -/
structure UartDevice where
  /-- Pending RX bytes; a `DR` read pops the front; `FR.RXFE` is `rxFifo = []`. -/
  rxFifo : List Nat
  /-- Bytes that arrive while a blocking busy-wait on `FR.RXFE` spins. -/
  rxArrivals : List Nat
  /-- The constant value reads of `FR.TXFF` return. -/
  txFull : Bool
  /-- The masked interrupt status `MIS` as snapshotted by `extract()`. -/
  mis : Nat
  /-- Trace of all MMIO register writes, in program order. -/
  writes : List MMIOWrite
deriving DecidableEq, Repr

/-- The Rust struct `PL011UartInner`: the bound MMIO start address and the
two statistics counters. -/
structure PL011UartInner where
  registers : Nat
  chars_written : Nat
  chars_read : Nat
deriving DecidableEq, Repr

/-- Driver-inner state paired with the device it talks to. -/
structure InnerState where
  drv : PL011UartInner
  dev : UartDevice
deriving DecidableEq, Repr

/-- The Rust struct `PL011Uart`: physical descriptor start address, the
atomically published virtual start address (0 = unset), the IRQ number, and
the lock-wrapped inner state. -/
structure UartState where
  phys_mmio_descriptor : Nat
  virt_mmio_start_addr : Nat
  irq_number : Nat
  inner : InnerState
deriving DecidableEq, Repr

/-- `enum BlockingMode`. -/
inductive BlockingMode
  | Blocking
  | NonBlocking
deriving DecidableEq, Repr

/-- `ICR::ALL::CLEAR`: in the `register` crate a field's `CLEAR` is the
`FieldValue` with value 0 (mask `0x7ff` for the 11-bit `ALL` field), and
`Register.write` sets the whole register to the field value, so the value
written is 0. -/
def ICR_ALL_CLEAR : Nat := 0

/-- `LCRH::WLEN::EightBit` = `0b11` at offset 5. -/
def LCRH_WLEN_EightBit : Nat := 3 <<< 5

/-- `LCRH::FEN::FifosEnabled` = 1 at offset 4. -/
def LCRH_FEN_FifosEnabled : Nat := 1 <<< 4

/-- `IFLS::RXIFLSEL::OneEigth` = `0b000` at offset 3. -/
def IFLS_RXIFLSEL_OneEigth : Nat := 0 <<< 3

/-- `IMSC::RXIM::Enabled` = 1 at offset 4. -/
def IMSC_RXIM_Enabled : Nat := 1 <<< 4

/-- `IMSC::RTIM::Enabled` = 1 at offset 6. -/
def IMSC_RTIM_Enabled : Nat := 1 <<< 6

/-- `CR::UARTEN::Enabled` = 1 at offset 0. -/
def CR_UARTEN_Enabled : Nat := 1 <<< 0

/-- `CR::TXE::Enabled` = 1 at offset 8. -/
def CR_TXE_Enabled : Nat := 1 <<< 8

/-- `CR::RXE::Enabled` = 1 at offset 9. -/
def CR_RXE_Enabled : Nat := 1 <<< 9

/-- Mask of `MIS::RXMIS` (bit 4). -/
def MIS_RXMIS : Nat := 1 <<< 4

/-- Mask of `MIS::RTMIS` (bit 6). -/
def MIS_RTMIS : Nat := 1 <<< 6

/-- Record one register write in the trace, tagged with the currently bound
base address. -/
def regWrite (s : InnerState) (r : Reg) (v : Nat) : InnerState :=
  { s with dev := { s.dev with writes := s.dev.writes ++ [⟨s.drv.registers, r, v⟩] } }

/-- `PL011UartInner::init(new_mmio_start_addr)` (lines 244-267): optional
rebind of the register handle, then the fixed write sequence
CR=0, ICR clear, IBRD, FBRD, LCRH, IFLS, IMSC, CR enable; always `Ok(())`. -/
def PL011UartInner.init (s : InnerState) (new_mmio_start_addr : Option Nat) :
    Except String InnerState :=
  let s := match new_mmio_start_addr with
    | some addr => { s with drv := { s.drv with registers := addr } }
    | none => s
  let s := regWrite s Reg.CR 0
  let s := regWrite s Reg.ICR ICR_ALL_CLEAR
  let s := regWrite s Reg.IBRD 13
  let s := regWrite s Reg.FBRD 1
  let s := regWrite s Reg.LCRH (LCRH_WLEN_EightBit ||| LCRH_FEN_FifosEnabled)
  let s := regWrite s Reg.IFLS IFLS_RXIFLSEL_OneEigth
  let s := regWrite s Reg.IMSC (IMSC_RXIM_Enabled ||| IMSC_RTIM_Enabled)
  let s := regWrite s Reg.CR (CR_UARTEN_Enabled ||| CR_TXE_Enabled ||| CR_RXE_Enabled)
  Except.ok s

/-- `PL011UartInner::write_char(c)` (lines 270-280): spin while `FR.TXFF`
is set (with `txFull` constant the spin terminates exactly when it is
false; `none` models the non-terminating wait), then `DR.set(c as u32)` and
increment `chars_written`. -/
def PL011UartInner.write_char (s : InnerState) (c : Char) : Option InnerState :=
  if s.dev.txFull then
    none
  else
    let s := regWrite s Reg.DR c.toNat
    some { s with drv := { s.drv with chars_written := s.drv.chars_written + 1 } }

/-- The byte-to-char step of `read_char_converting` (lines 298-303):
`DR.get() as u8 as char`, then carriage return converted to newline. -/
def rxByteToChar (b : Nat) : Char :=
  if Char.ofNat (b % 256) = '\r' then '\n' else Char.ofNat (b % 256)

/-- `PL011UartInner::read_char_converting(blocking_mode)` (lines 283-309).
If the RX FIFO is empty: non-blocking mode returns `None` (no state
change); blocking mode busy-waits on `FR.RXFE` — the wait ends exactly when
bytes arrive (`rxArrivals` nonempty, which then constitutes the FIFO), and
the outer `none` models the non-terminating wait.  Then one byte is popped
from `DR`, converted by `rxByteToChar`, and `chars_read` is incremented. -/
def PL011UartInner.read_char_converting (s : InnerState) (blocking_mode : BlockingMode) :
    Option (Option Char × InnerState) :=
  match s.dev.rxFifo with
  | [] =>
    match blocking_mode with
    | BlockingMode.NonBlocking => some (none, s)
    | BlockingMode.Blocking =>
      match s.dev.rxArrivals with
      | [] => none
      | b :: rest =>
        let s := { s with dev := { s.dev with rxFifo := rest, rxArrivals := ([] : List Nat) } }
        some (some (rxByteToChar b),
          { s with drv := { s.drv with chars_read := s.drv.chars_read + 1 } })
  | b :: rest =>
    let s := { s with dev := { s.dev with rxFifo := rest } }
    some (some (rxByteToChar b),
      { s with drv := { s.drv with chars_read := s.drv.chars_read + 1 } })

/-- The drain-and-echo loop inside `PL011Uart::handle` (lines 462-464):
`while let Some(c) = read_char_converting(NonBlocking) { write_char(c) }`.
`none` propagates a non-terminating `write_char` busy-wait.  The loop
terminates because a non-blocking read that yields a character pops exactly
one RX FIFO entry and `write_char` does not touch the RX FIFO. -/
def handleEchoLoop (s : InnerState) : Option InnerState :=
  match h : PL011UartInner.read_char_converting s BlockingMode.NonBlocking with
  | some (some c, s1) =>
    match h2 : PL011UartInner.write_char s1 c with
    | some s2 => handleEchoLoop s2
    | none => none
  | some (none, s1) => some s1
  | none => none
termination_by s.dev.rxFifo.length
decreasing_by
  have e2 : s2.dev.rxFifo = s1.dev.rxFifo := by
    cases hb : s1.dev.txFull with
    | true => simp [PL011UartInner.write_char, hb] at h2
    | false =>
      simp only [PL011UartInner.write_char, hb, Bool.false_eq_true, if_false,
        Option.some.injEq] at h2
      simp [← h2, regWrite]
  have e1 : s1.dev.rxFifo.length + 1 = s.dev.rxFifo.length := by
    unfold PL011UartInner.read_char_converting at h
    cases hf : s.dev.rxFifo with
    | nil => simp [hf] at h
    | cons b rest =>
      rw [hf] at h
      simp only [Option.some.injEq, Prod.mk.injEq] at h
      simp [← h.2, hf]
  rw [e2]
  omega

/-- `PL011Uart::handle` (lines 452-469): snapshot `MIS`, write the
clear-all value to `ICR`, and if `RXMIS` or `RTMIS` was set in the
snapshot, drain and echo. -/
def PL011Uart.handle (s : UartState) : Option UartState :=
  let pending := s.inner.dev.mis
  let i1 := regWrite s.inner Reg.ICR ICR_ALL_CLEAR
  if pending &&& (MIS_RXMIS ||| MIS_RTMIS) ≠ 0 then
    match handleEchoLoop i1 with
    | some i2 => some { s with inner := i2 }
    | none => none
  else
    some { s with inner := i1 }

/-- `PL011Uart::new` (lines 338-350): virtual address slot starts at 0
(unset), the inner engine is bound to the physical start address, counters
are zero. -/
def PL011Uart.new (phys irq : Nat) (dev : UartDevice) : UartState :=
  { phys_mmio_descriptor := phys
    virt_mmio_start_addr := 0
    irq_number := irq
    inner := { drv := { registers := phys, chars_written := 0, chars_read := 0 }, dev := dev } }

/-- `PL011Uart::init` (lines 363-374).  The mapping collaborator
`kernel_map_mmio` is external; its outcome is the parameter `mapRes`.  On
failure the error propagates via `?` before any register access or
publication.  On success the inner engine is rebound and configured by
`PL011UartInner::init(Some(virt))`, and only then is the virtual address
published. -/
def PL011Uart.init (s : UartState) (mapRes : Except String Nat) :
    Except String Unit × UartState :=
  match mapRes with
  | Except.error e => (Except.error e, s)
  | Except.ok virt =>
    match PL011UartInner.init s.inner (some virt) with
    | Except.error e => (Except.error e, s)
    | Except.ok i1 => (Except.ok (), { s with inner := i1, virt_mmio_start_addr := virt })

/-- `PL011Uart::virt_mmio_start_addr` (lines 391-399): 0 means unset. -/
def PL011Uart.virt_mmio_start_addr (s : UartState) : Option Nat :=
  if s.virt_mmio_start_addr = 0 then none else some s.virt_mmio_start_addr

/-- `PL011Uart::read_char` (lines 426-429): blocking read plus `unwrap()`.
The outer `none` models the non-terminating busy-wait; the inner `none`
models the `unwrap()` panic on a `None` read. -/
def PL011Uart.read_char (s : UartState) : Option (Option (Char × UartState)) :=
  match PL011UartInner.read_char_converting s.inner BlockingMode.Blocking with
  | some (some c, i1) => some (some (c, { s with inner := i1 }))
  | some (none, _) => some none
  | none => none

/-- The drain loop of `PL011Uart::clear` (lines 431-438): read `DR` until
`FR.RXFE` is set, discarding the bytes. -/
def clearRxFifo (i : InnerState) : InnerState :=
  match h : i.dev.rxFifo with
  | [] => i
  | _b :: rest => clearRxFifo { i with dev := { i.dev with rxFifo := rest } }
termination_by i.dev.rxFifo.length
decreasing_by
  simp only [h]
  simp

/-- `PL011Uart::clear` (lines 431-438). -/
def PL011Uart.clear (s : UartState) : UartState :=
  { s with inner := clearRxFifo s.inner }

/-- The write sequence `PL011UartInner::init` performs, at a given bound
base address, in program order. -/
def initRegWrites (base : Nat) : List MMIOWrite :=
  [⟨base, Reg.CR, 0⟩,
   ⟨base, Reg.ICR, ICR_ALL_CLEAR⟩,
   ⟨base, Reg.IBRD, 13⟩,
   ⟨base, Reg.FBRD, 1⟩,
   ⟨base, Reg.LCRH, LCRH_WLEN_EightBit ||| LCRH_FEN_FifosEnabled⟩,
   ⟨base, Reg.IFLS, IFLS_RXIFLSEL_OneEigth⟩,
   ⟨base, Reg.IMSC, IMSC_RXIM_Enabled ||| IMSC_RTIM_Enabled⟩,
   ⟨base, Reg.CR, CR_UARTEN_Enabled ||| CR_TXE_Enabled ||| CR_RXE_Enabled⟩]

/-- Last value written to register `r` in a trace, if any. -/
def lastWrite (r : Reg) : List MMIOWrite → Option Nat
  | [] => none
  | e :: es =>
    match lastWrite r es with
    | some v => some v
    | none => if e.reg = r then some e.val else none

/-- Iterated `write_char` over a list of characters, stopping at a
non-terminating call. -/
def write_chars : InnerState → List Char → Option InnerState
  | s, [] => some s
  | s, c :: cs =>
    match PL011UartInner.write_char s c with
    | some t => write_chars t cs
    | none => none

/-- Characterization of the drain-and-echo loop on a destructured state
with the TX-full flag clear: it pops the whole RX FIFO, echoes each byte
(converted) to `DR` in arrival order, and bumps both counters by the FIFO
length. -/
theorem handleEchoLoop_spec (l : List Nat) :
    ∀ (dr cw cr misv : Nat) (arr : List Nat) (w : List MMIOWrite),
    handleEchoLoop ⟨⟨dr, cw, cr⟩, ⟨l, arr, false, misv, w⟩⟩ =
      some ⟨⟨dr, cw + l.length, cr + l.length⟩,
            ⟨[], arr, false, misv,
             w ++ l.map (fun b => ⟨dr, Reg.DR, (rxByteToChar b).toNat⟩)⟩⟩ := by
  induction l with
  | nil =>
    intro dr cw cr misv arr w
    rw [handleEchoLoop]
    simp [PL011UartInner.read_char_converting]
  | cons b rest ih =>
    intro dr cw cr misv arr w
    rw [handleEchoLoop]
    simp only [PL011UartInner.read_char_converting, PL011UartInner.write_char, regWrite,
      Bool.false_eq_true, if_false]
    split
    case _ s2 heq =>
      simp only [Bool.false_eq_true, if_false, Option.some.injEq] at heq
      rw [← heq, ih]
      simp [List.append_assoc, Nat.add_assoc, Nat.add_comm 1 rest.length]
    case _ heq =>
      simp at heq

/-- General characterization of `PL011UartInner::init`: it rebinds the
handle when a new address is supplied and appends exactly `initRegWrites`
at the resulting base address; everything else is untouched. -/
theorem init_eq (s : InnerState) (newAddr : Option Nat) :
    PL011UartInner.init s newAddr = Except.ok
      { drv := { s.drv with registers := newAddr.getD s.drv.registers },
        dev := { s.dev with
          writes := s.dev.writes ++ initRegWrites (newAddr.getD s.drv.registers) } } := by
  obtain ⟨⟨dr, cw, cr⟩, ⟨fifo, arr, tx, misv, w⟩⟩ := s
  cases newAddr <;>
    simp [PL011UartInner.init, regWrite, initRegWrites, List.append_assoc]

/-- Splitting `lastWrite` over an append. -/
theorem lastWrite_append (r : Reg) (xs ys : List MMIOWrite) :
    lastWrite r (xs ++ ys) =
      match lastWrite r ys with
      | some v => some v
      | none => lastWrite r xs := by
  induction xs with
  | nil =>
    cases h : lastWrite r ys <;> simp [lastWrite, h]
  | cons x xs ih =>
    cases h : lastWrite r ys <;> simp [lastWrite, ih, h]

/-- The drain loop of `clear` empties the RX FIFO and changes nothing
else. -/
theorem clearRxFifo_eq (l : List Nat) :
    ∀ i : InnerState, i.dev.rxFifo = l →
      clearRxFifo i = { i with dev := { i.dev with rxFifo := ([] : List Nat) } } := by
  induction l with
  | nil =>
    intro i hi
    obtain ⟨⟨dr, cw, cr⟩, ⟨fifo, arr, tx, misv, w⟩⟩ := i
    rw [clearRxFifo]
    simp only at hi
    subst hi
    simp
  | cons b rest ih =>
    intro i hi
    obtain ⟨⟨dr, cw, cr⟩, ⟨fifo, arr, tx, misv, w⟩⟩ := i
    simp only at hi
    subst hi
    rw [clearRxFifo]
    simpa using ih _ rfl

set_option maxRecDepth 4096 in
/-- A byte below 256 that is not a carriage return converts to the
character with the same code. -/
theorem rxByteToChar_of_ne : ∀ m, m < 256 → m ≠ 13 → (rxByteToChar m).toNat = m := by decide

/-- Carriage returns convert to line feed. -/
theorem rxByteToChar_cr (b : Nat) (hb : b % 256 = 13) : rxByteToChar b = '\n' := by
  simp [rxByteToChar, hb]

/-- Conversion depends only on the low byte. -/
theorem rxByteToChar_mod (b : Nat) : rxByteToChar (b % 256) = rxByteToChar b := by
  have hm : b % 256 % 256 = b % 256 := by omega
  simp [rxByteToChar, hm]

/-- C1: `handle()` snapshots the masked interrupt status, then writes the
clear-all value to `ICR` unconditionally (the first entry appended to the
write trace).  Iff the snapshot had `RXMIS` or `RTMIS` set, it drains the
RX FIFO with non-blocking reads, echoing each obtained character to `DR`
in arrival order, stopping exactly when the FIFO reports empty; otherwise
no byte is read (the FIFO and the read counter are untouched) and nothing
is echoed. -/
theorem handle_rx_interrupt_echo (s : UartState) (hTx : s.inner.dev.txFull = false) :
    (s.inner.dev.mis &&& (MIS_RXMIS ||| MIS_RTMIS) ≠ 0 →
      PL011Uart.handle s = some { s with inner :=
        ⟨⟨s.inner.drv.registers,
          s.inner.drv.chars_written + s.inner.dev.rxFifo.length,
          s.inner.drv.chars_read + s.inner.dev.rxFifo.length⟩,
         ⟨[], s.inner.dev.rxArrivals, false, s.inner.dev.mis,
          s.inner.dev.writes ++
            ⟨s.inner.drv.registers, Reg.ICR, ICR_ALL_CLEAR⟩ ::
              s.inner.dev.rxFifo.map
                (fun b => ⟨s.inner.drv.registers, Reg.DR, (rxByteToChar b).toNat⟩)⟩⟩ }) ∧
    (s.inner.dev.mis &&& (MIS_RXMIS ||| MIS_RTMIS) = 0 →
      PL011Uart.handle s = some { s with inner :=
        ⟨s.inner.drv,
         { s.inner.dev with
            writes := s.inner.dev.writes ++
              [⟨s.inner.drv.registers, Reg.ICR, ICR_ALL_CLEAR⟩] }⟩ }) := by
  obtain ⟨phys, virt, irq, ⟨⟨dr, cw, cr⟩, ⟨fifo, arr, tx, misv, w⟩⟩⟩ := s
  simp only at hTx
  subst hTx
  constructor
  · intro hm
    simp only [PL011Uart.handle, regWrite, hm, if_pos, ne_eq, not_false_iff]
    rw [handleEchoLoop_spec]
    simp [List.append_assoc]
  · intro hm
    simp only at hm
    simp [PL011Uart.handle, regWrite, hm]

/-- C1 instance: RX-data status set and three bytes queued: the handler
clears the interrupts and echoes exactly those three bytes in order. -/
theorem handle_rx_interrupt_echo_witness :
    PL011Uart.handle ⟨4096, 0, 57, ⟨⟨4096, 5, 7⟩, ⟨[65, 66, 67], [], false, 16, []⟩⟩⟩ =
      some ⟨4096, 0, 57, ⟨⟨4096, 8, 10⟩, ⟨[], [], false, 16,
        [⟨4096, Reg.ICR, 0⟩, ⟨4096, Reg.DR, 65⟩, ⟨4096, Reg.DR, 66⟩,
         ⟨4096, Reg.DR, 67⟩]⟩⟩⟩ := by
  have h := (handle_rx_interrupt_echo
    ⟨4096, 0, 57, ⟨⟨4096, 5, 7⟩, ⟨[65, 66, 67], [], false, 16, []⟩⟩⟩ rfl).1 (by decide)
  exact h.trans (by decide)

/-- C2: `PL011UartInner::init` rebinds the register handle (when a new
address is supplied) before any register access — every write in the
appended trace carries the new base — and then performs exactly the write
sequence CR=0, ICR clear-all, IBRD, FBRD, LCRH (8-bit, FIFOs on), IFLS
(one-eighth trigger), IMSC (RX and RX-timeout unmasked), and finally CR
with UARTEN, TXE and RXE asserted together. -/
theorem init_register_sequence (s : InnerState) (newAddr : Option Nat) :
    PL011UartInner.init s newAddr = Except.ok
      { drv := { s.drv with registers := newAddr.getD s.drv.registers },
        dev := { s.dev with
          writes := s.dev.writes ++ initRegWrites (newAddr.getD s.drv.registers) } } :=
  init_eq s newAddr

/-- C3: a successful `read_char_converting` takes exactly one byte from
the data register (popping the front of the RX FIFO, or of the bytes that
arrived during the blocking wait), increments the read counter by exactly
one, and returns the byte as a character with carriage return converted to
line feed (so byte 13 yields a line feed and any other byte below 256
yields the character of the same code; 0x41 yields letter A). -/
theorem read_char_converting_success (s : InnerState) (mode : BlockingMode) (c : Char)
    (t : InnerState)
    (h : PL011UartInner.read_char_converting s mode = some (some c, t)) :
    t.drv.chars_read = s.drv.chars_read + 1 ∧
    t.drv.chars_written = s.drv.chars_written ∧
    rxByteToChar 13 = '\n' ∧ rxByteToChar 65 = 'A' ∧
    ∃ b, c = rxByteToChar b ∧
      (b % 256 = 13 → c = '\n') ∧
      (b % 256 ≠ 13 → c.toNat = b % 256) ∧
      ((∃ rest, s.dev.rxFifo = b :: rest ∧ t.dev.rxFifo = rest ∧
          t.dev.rxArrivals = s.dev.rxArrivals) ∨
        (s.dev.rxFifo = [] ∧ ∃ rest, s.dev.rxArrivals = b :: rest ∧
          t.dev.rxFifo = rest ∧ t.dev.rxArrivals = [])) := by
  obtain ⟨⟨dr, cw, cr⟩, ⟨fifo, arr, tx, misv, w⟩⟩ := s
  cases fifo with
  | cons b rest =>
    simp only [PL011UartInner.read_char_converting, Option.some.injEq, Prod.mk.injEq] at h
    obtain ⟨hc, ht⟩ := h
    subst ht
    refine ⟨by simp, by simp, by decide, by decide, b, hc.symm, ?_, ?_,
      Or.inl ⟨rest, rfl, by simp, by simp⟩⟩
    · intro hb
      rw [← hc, rxByteToChar_cr b hb]
    · intro hb
      rw [← hc, ← rxByteToChar_mod b,
        rxByteToChar_of_ne (b % 256) (Nat.mod_lt _ (by norm_num)) hb]
  | nil =>
    cases mode with
    | NonBlocking => simp [PL011UartInner.read_char_converting] at h
    | Blocking =>
      cases ha : arr with
      | nil =>
        rw [ha] at h
        simp [PL011UartInner.read_char_converting] at h
      | cons b rest =>
        rw [ha] at h
        simp only [PL011UartInner.read_char_converting, Option.some.injEq,
          Prod.mk.injEq] at h
        obtain ⟨hc, ht⟩ := h
        subst ht
        refine ⟨by simp, by simp, by decide, by decide, b, hc.symm, ?_, ?_,
          Or.inr ⟨rfl, rest, by simp, by simp, by simp⟩⟩
        · intro hb
          rw [← hc, rxByteToChar_cr b hb]
        · intro hb
          rw [← hc, ← rxByteToChar_mod b,
            rxByteToChar_of_ne (b % 256) (Nat.mod_lt _ (by norm_num)) hb]

/-- C3 instance: reading byte 0x41 from a one-byte FIFO bumps the read
counter from 0 to 1. -/
theorem read_char_converting_success_witness :
    ((⟨⟨4096, 0, 1⟩, ⟨[], [], false, 0, []⟩⟩ : InnerState)).drv.chars_read =
      ((⟨⟨4096, 0, 0⟩, ⟨[65], [], false, 0, []⟩⟩ : InnerState)).drv.chars_read + 1 :=
  (read_char_converting_success ⟨⟨4096, 0, 0⟩, ⟨[65], [], false, 0, []⟩⟩
    BlockingMode.NonBlocking 'A' ⟨⟨4096, 0, 1⟩, ⟨[], [], false, 0, []⟩⟩ (by decide)).1

/-- C4: a non-blocking read with the RX-empty flag set returns no data and
leaves the whole state — in particular the read counter — unchanged. -/
theorem read_nonblocking_empty (s : InnerState) (h : s.dev.rxFifo = []) :
    PL011UartInner.read_char_converting s BlockingMode.NonBlocking = some (none, s) := by
  obtain ⟨⟨dr, cw, cr⟩, ⟨fifo, arr, tx, misv, w⟩⟩ := s
  simp only at h
  subst h
  simp [PL011UartInner.read_char_converting]

/-- C4 instance. -/
theorem read_nonblocking_empty_witness :
    PL011UartInner.read_char_converting ⟨⟨4096, 2, 3⟩, ⟨[], [9], true, 0, []⟩⟩
        BlockingMode.NonBlocking =
      some (none, ⟨⟨4096, 2, 3⟩, ⟨[], [9], true, 0, []⟩⟩) :=
  read_nonblocking_empty _ rfl

/-- Iterated `write_char` on a destructured state with the TX-full flag
clear. -/
theorem write_chars_go (cs : List Char) :
    ∀ (dr cw cr misv : Nat) (fifo arr : List Nat) (w : List MMIOWrite),
    write_chars ⟨⟨dr, cw, cr⟩, ⟨fifo, arr, false, misv, w⟩⟩ cs = some
      ⟨⟨dr, cw + cs.length, cr⟩,
       ⟨fifo, arr, false, misv, w ++ cs.map (fun c => ⟨dr, Reg.DR, c.toNat⟩)⟩⟩ := by
  induction cs with
  | nil =>
    intro dr cw cr misv fifo arr w
    simp [write_chars]
  | cons c cs ih =>
    intro dr cw cr misv fifo arr w
    simp only [write_chars, PL011UartInner.write_char, regWrite, Bool.false_eq_true,
      if_false]
    rw [ih]
    simp [List.append_assoc, Nat.add_assoc, Nat.add_comm 1 cs.length]

/-- C5: a sequence of N `write_char` calls during which the TX-full flag
never reads as set completes, writes exactly the numeric value of each
character argument to the data register once, in order, and increases the
write counter from W to W + N. -/
theorem write_chars_spec (s : InnerState) (cs : List Char) (hTx : s.dev.txFull = false) :
    write_chars s cs = some
      { drv := { s.drv with chars_written := s.drv.chars_written + cs.length },
        dev := { s.dev with writes := (s.dev.writes ++
          cs.map (fun c => ⟨s.drv.registers, Reg.DR, c.toNat⟩) : List MMIOWrite) } } := by
  obtain ⟨⟨dr, cw, cr⟩, ⟨fifo, arr, tx, misv, w⟩⟩ := s
  simp only at hTx
  subst hTx
  exact write_chars_go cs dr cw cr misv fifo arr w

/-- C5 instance: two writes bump the counter from 10 to 12 and append the
two byte values to the trace in order. -/
theorem write_chars_spec_witness :
    write_chars ⟨⟨4096, 10, 0⟩, ⟨[], [], false, 0, []⟩⟩ (['H', 'i'] : List Char) = some
      ⟨⟨4096, 12, 0⟩, ⟨[], [], false, 0, [⟨4096, Reg.DR, 72⟩, ⟨4096, Reg.DR, 105⟩]⟩⟩ :=
  (write_chars_spec ⟨⟨4096, 10, 0⟩, ⟨[], [], false, 0, []⟩⟩ (['H', 'i'] : List Char)
    rfl).trans (by decide)

/-- C6: the virtual-address query is unset on a fresh instance; a
successful `PL011Uart::init` rebinds the inner engine to the mapped
address, performs the full configuration write sequence, and publishes
exactly the mapped address, which the query then returns; a mapping
failure propagates the error with no register access and no publication
(the state is returned unchanged). -/
theorem virt_mmio_lifecycle (phys irq v : Nat) (dev : UartDevice) (s : UartState)
    (e : String) (hv : v ≠ 0) :
    PL011Uart.virt_mmio_start_addr (PL011Uart.new phys irq dev) = none ∧
    PL011Uart.init s (Except.ok v) = (Except.ok (),
      { s with virt_mmio_start_addr := v,
               inner := { drv := { s.inner.drv with registers := v },
                          dev := { s.inner.dev with
                            writes := (s.inner.dev.writes ++ initRegWrites v :
                              List MMIOWrite) } } }) ∧
    PL011Uart.virt_mmio_start_addr (PL011Uart.init s (Except.ok v)).2 = some v ∧
    PL011Uart.init s (Except.error e) = (Except.error e, s) := by
  refine ⟨?_, ?_, ?_, ?_⟩
  · simp [PL011Uart.new, PL011Uart.virt_mmio_start_addr]
  · simp [PL011Uart.init, init_eq]
  · simp [PL011Uart.init, init_eq, PL011Uart.virt_mmio_start_addr, hv]
  · simp [PL011Uart.init]

/-- C6 instance: after a successful map to address 500000 the query
returns exactly that address. -/
theorem virt_mmio_lifecycle_witness :
    PL011Uart.virt_mmio_start_addr
        (PL011Uart.init ⟨4096, 0, 57, ⟨⟨4096, 0, 0⟩, ⟨[], [], false, 0, []⟩⟩⟩
          (Except.ok 500000)).2 = some 500000 :=
  (virt_mmio_lifecycle 4096 57 500000 ⟨[], [], false, 0, []⟩
    ⟨4096, 0, 57, ⟨⟨4096, 0, 0⟩, ⟨[], [], false, 0, []⟩⟩⟩ "map error"
    (by decide)).2.2.1

/-- C7: initialization writes integer divisor 13 = (48000000/16)/230400
to `IBRD` and fractional divisor 1 = round(((48000000/16)/230400 - 13)*64)
to `FBRD`, and the baud rate these divisors realize differs from 230400 by
less than 0.1 percent (well inside the 5 percent margin). -/
theorem baud_divisor_values (s t : InnerState)
    (h : PL011UartInner.init s none = Except.ok t) :
    lastWrite Reg.IBRD t.dev.writes = some (48000000 / 16 / 230400) ∧
    (48000000 : Nat) / 16 / 230400 = 13 ∧
    lastWrite Reg.FBRD t.dev.writes =
      some (round (((48000000 : ℚ) / 16 / 230400 - 13) * 64)).toNat ∧
    round (((48000000 : ℚ) / 16 / 230400 - 13) * 64) = 1 ∧
    |(48000000 : ℚ) / 16 / (13 + 1 / 64) - 230400| / 230400 < 1 / 1000 ∧
    ((1 : ℚ) / 1000) ≤ 5 / 100 := by
  rw [init_eq] at h
  simp only [Except.ok.injEq] at h
  subst h
  refine ⟨?_, by norm_num, ?_, ?_, ?_, by norm_num⟩
  · rw [lastWrite_append]
    rfl
  · rw [lastWrite_append]
    have hr : round (((48000000 : ℚ) / 16 / 230400 - 13) * 64) = 1 := by
      have h43 : ((48000000 : ℚ) / 16 / 230400 - 13) * 64 = 4 / 3 := by norm_num
      rw [h43, round_eq]
      norm_num
    rw [hr]
    rfl
  · have h43 : ((48000000 : ℚ) / 16 / 230400 - 13) * 64 = 4 / 3 := by norm_num
    rw [h43, round_eq]
    norm_num
  · have habs : (48000000 : ℚ) / 16 / (13 + 1 / 64) - 230400 = 76800 / 833 := by
      norm_num
    rw [habs, abs_of_pos (by norm_num)]
    norm_num

/-- C7 instance at a freshly bound inner engine. -/
theorem baud_divisor_values_witness :
    lastWrite Reg.IBRD (initRegWrites 4096) = some (48000000 / 16 / 230400) :=
  (baud_divisor_values ⟨⟨4096, 0, 0⟩, ⟨[], [], false, 0, []⟩⟩
    ⟨⟨4096, 0, 0⟩, ⟨[], [], false, 0, initRegWrites 4096⟩⟩ rfl).1

/-- C8: running the full initialization sequence twice in a row with no
address change leaves the last value written to each configuration
register (every register except `DR`, i.e. CR, ICR, IBRD, FBRD, LCRH,
IFLS, IMSC) identical to the state after a single invocation. -/
theorem init_reinvocation_final_state (s t u : InnerState) (r : Reg)
    (h1 : PL011UartInner.init s none = Except.ok t)
    (h2 : PL011UartInner.init t none = Except.ok u)
    (hr : r ≠ Reg.DR) :
    lastWrite r u.dev.writes = lastWrite r t.dev.writes := by
  rw [init_eq] at h1 h2
  simp only [Except.ok.injEq] at h1 h2
  subst h1
  subst h2
  cases r with
  | DR => exact absurd rfl hr
  | IBRD => simp only [lastWrite_append]; rfl
  | FBRD => simp only [lastWrite_append]; rfl
  | LCRH => simp only [lastWrite_append]; rfl
  | CR => simp only [lastWrite_append]; rfl
  | IFLS => simp only [lastWrite_append]; rfl
  | IMSC => simp only [lastWrite_append]; rfl
  | ICR => simp only [lastWrite_append]; rfl

/-- C8 instance for the control register. -/
theorem init_reinvocation_final_state_witness :
    lastWrite Reg.CR (initRegWrites 4096 ++ initRegWrites 4096) =
      lastWrite Reg.CR (initRegWrites 4096) :=
  init_reinvocation_final_state ⟨⟨4096, 0, 0⟩, ⟨[], [], false, 0, []⟩⟩
    ⟨⟨4096, 0, 0⟩, ⟨[], [], false, 0, initRegWrites 4096⟩⟩
    ⟨⟨4096, 0, 0⟩, ⟨[], [], false, 0, initRegWrites 4096 ++ initRegWrites 4096⟩⟩
    Reg.CR rfl rfl (by decide)

/-- C9: in blocking mode, on any hardware trace in which the RX side is or
eventually becomes non-empty, the read returns a character — so the
`unwrap()` in the console-read adapter never panics. -/
theorem blocking_read_no_panic (s : UartState)
    (h : s.inner.dev.rxFifo ≠ [] ∨ s.inner.dev.rxArrivals ≠ []) :
    ∃ c t, PL011Uart.read_char s = some (some (c, t)) := by
  obtain ⟨phys, virt, irq, ⟨⟨dr, cw, cr⟩, ⟨fifo, arr, tx, misv, w⟩⟩⟩ := s
  cases fifo with
  | cons b rest =>
    exact ⟨rxByteToChar b,
      ⟨phys, virt, irq, ⟨⟨dr, cw, cr + 1⟩, ⟨rest, arr, tx, misv, w⟩⟩⟩, rfl⟩
  | nil =>
    cases arr with
    | nil => simp at h
    | cons b rest =>
      exact ⟨rxByteToChar b,
        ⟨phys, virt, irq, ⟨⟨dr, cw, cr + 1⟩, ⟨rest, [], tx, misv, w⟩⟩⟩, rfl⟩

/-- C9 instance. -/
theorem blocking_read_no_panic_witness :
    ∃ c t, PL011Uart.read_char ⟨4096, 0, 57, ⟨⟨4096, 0, 0⟩, ⟨[72], [], false, 0, []⟩⟩⟩ =
      some (some (c, t)) :=
  blocking_read_no_panic ⟨4096, 0, 57, ⟨⟨4096, 0, 0⟩, ⟨[72], [], false, 0, []⟩⟩⟩
    (Or.inl (by decide))

/-- C10: `clear()` drains the RX FIFO by reading the data register but
leaves both statistics counters (and the write trace) unchanged. -/
theorem clear_preserves_counters (s : UartState) :
    (PL011Uart.clear s).inner.drv.chars_read = s.inner.drv.chars_read ∧
    (PL011Uart.clear s).inner.drv.chars_written = s.inner.drv.chars_written ∧
    (PL011Uart.clear s).inner.dev.writes = s.inner.dev.writes ∧
    (PL011Uart.clear s).inner.dev.rxFifo = [] := by
  obtain ⟨phys, virt, irq, ⟨⟨dr, cw, cr⟩, ⟨fifo, arr, tx, misv, w⟩⟩⟩ := s
  simp [PL011Uart.clear,
    clearRxFifo_eq fifo ⟨⟨dr, cw, cr⟩, ⟨fifo, arr, tx, misv, w⟩⟩ rfl]

end PL011
